import Mathlib

/-!
Verification development for the nedok dual-pane terminal file browser
(src/nedok).  The Python sources are shallowly embedded: pure logic is
translated into Lean functions, the filesystem and SSH/git side effects are
represented by explicit data (finite sets of paths, listings passed as
values, abstract node graphs), and exceptions become Except / Option values.
Paths on the local filesystem are modelled as lists of name components
(List String); a directory entry `d` contains `p` exactly when `d` is a
proper prefix of `p`.
-/

namespace Nedok

/-- Local filesystem paths as component lists (Python pathlib.Path). -/
abbrev PathL := List String

/-- Python str.lower, applied characterwise (sufficient for the ASCII
status messages and file names involved here). -/
def pyLower (s : String) : String := String.mk (s.data.map Char.toLower)

/-- Python substring test `needle in hay` on character lists. -/
def hasInfixB (needle : List Char) : List Char → Bool
  | [] => needle.isEmpty
  | c :: rest => needle.isPrefixOf (c :: rest) || hasInfixB needle rest

/-- The `"failed" in (self.status_message or "").lower()` test that
`_move_entry` uses to decide whether the preceding `_copy_entry` succeeded
(src/nedok/file_operations.py line 162). -/
def statusHasFailed : Option String → Bool
  | none => false
  | some m => hasInfixB "failed".toList (pyLower m).toList

/-- The selected pane entry, as consumed by the file-operation handlers:
its path, whether it is a directory and whether it is the synthetic parent
entry (src/nedok/state.py, _PaneEntry). -/
structure SelEntry where
  path : PathL
  isDir : Bool
  isParent : Bool
deriving DecidableEq

/-- Model of `_get_entry_name`: the final path component of the entry. -/
def entryName (e : SelEntry) : String := e.path.getLastD ""

/-- The filesystem-visible state of the controller during a file
operation: the existing local paths (a list read as a finite set) together
with the transient status message. -/
structure FOState where
  fs : List PathL
  status : Option String
deriving DecidableEq

/-- shutil.copytree / shutil.copy2 on the path-set filesystem
(_copy_local_to_local): a directory copy re-roots every path under the
source to the destination, a file copy inserts the destination path. -/
def copyLocalFS (isDir : Bool) (src dst : PathL) (fs : List PathL) : List PathL :=
  if isDir then
    fs ++ (fs.filter (fun p => src.isPrefixOf p)).map (fun p => dst ++ p.drop src.length)
  else dst :: fs

/-- shutil.rmtree / Path.unlink on the path-set filesystem: a directory
delete removes the path and everything below it, a file delete removes the
exact path. -/
def deleteLocalFS (isDir : Bool) (p : PathL) (fs : List PathL) : List PathL :=
  if isDir then fs.filter (fun q => !(p.isPrefixOf q)) else fs.filter (fun q => decide (q ≠ p))

/-- Model of `_copy_entry` (src/nedok/file_operations.py lines 100-142) for a local
source and a local destination pane: refuse when nothing is selected or the
parent entry is selected, refuse with a "Destination exists" message when
the destination name is taken, otherwise copy and report success. -/
def copyEntryOp (sel : Option SelEntry) (dstDir : PathL) (st : FOState) : FOState :=
  match sel with
  | none => { st with status := some "Nothing to copy." }
  | some e =>
    if e.isParent then { st with status := some "Nothing to copy." }
    else
      let name := entryName e
      let dest := dstDir ++ [name]
      if dest ∈ st.fs then { st with status := some ("Destination exists: " ++ name) }
      else
        { fs := copyLocalFS e.isDir e.path dest st.fs,
          status := some ("Copied " ++ name ++ ".") }

/-- Model of `_move_entry` (src/nedok/file_operations.py lines 144-186) for a local
source and a local destination pane: run `_copy_entry`, then treat the copy
as successful unless the lower-cased status message contains "failed", in
which case stop; on "success" delete the source and report the move. -/
def moveEntryOp (sel : Option SelEntry) (dstDir : PathL) (st : FOState) : FOState :=
  match sel with
  | none => { st with status := some "Nothing to move." }
  | some e =>
    if e.isParent then { st with status := some "Nothing to move." }
    else
      let st1 := copyEntryOp (some e) dstDir st
      if statusHasFailed st1.status then st1
      else
        { fs := deleteLocalFS e.isDir e.path st1.fs,
          status := some ("Moved " ++ entryName e ++ ".") }

/-- Pending confirmation raised by `_delete_entry`: the prompt, the doomed
path, and the cancel message "Cancelled." (the delete flow passes no
on_decline action to `_request_confirmation`, so declining merely sets this
message). -/
structure ConfPending where
  message : String
  delPath : PathL
  delIsDir : Bool
  cancelMessage : String
deriving DecidableEq

/-- Controller state visible to the delete/confirmation flow. -/
structure ConfState where
  fs : List PathL
  status : Option String
  pending : Option ConfPending
deriving DecidableEq

/-- Model of `_delete_entry` (src/nedok/file_operations.py lines 25-59) for a local
entry: it only installs a pending confirmation and a prompt message; the
filesystem is untouched until the confirmation handler runs the action. -/
def deleteEntryStart (sel : Option SelEntry) (st : ConfState) : ConfState :=
  match sel with
  | none => { st with status := some "Nothing to delete." }
  | some e =>
    if e.isParent then { st with status := some "Nothing to delete." }
    else
      let name := entryName e
      { st with
        pending := some
          { message := "Delete " ++ name ++ "?",
            delPath := e.path,
            delIsDir := e.isDir,
            cancelMessage := "Cancelled." },
        status := some ("Delete " ++ name ++ "? (y/n)") }

/-- Model of `_handle_confirmation_key` (src/nedok/input_handlers.py lines 244-261)
specialised to the delete confirmation (whose cancel action is absent):
y/Y clears the pending action and runs the delete, n/N/ESC clears the
pending action and sets the cancel message, anything else is unhandled.
Key codes: y = 121, Y = 89, n = 110, N = 78, ESC = 27.  Returns whether the
key was handled, with the successor state. -/
def confirmationKey (k : Nat) (st : ConfState) : Bool × ConfState :=
  match st.pending with
  | none => (false, st)
  | some p =>
    if k = 121 ∨ k = 89 then
      (true,
        { fs := deleteLocalFS p.delIsDir p.delPath st.fs,
          status := some ("Deleted " ++ p.delPath.getLastD "" ++ "."),
          pending := none })
    else if k = 110 ∨ k = 78 ∨ k = 27 then
      (true, { st with pending := none, status := some p.cancelMessage })
    else (false, st)

/-! ### Pane state: local/remote refresh, sorting, cursor and scroll -/

/-- The slice of a stat result that the listing logic consumes
(stat.S_ISDIR of st_mode). -/
structure StatInfo where
  isDirS : Bool
deriving DecidableEq

/-- One child of the current directory as seen by `_refresh_local_entries`:
its name and the outcome of stat-ing it (`none` models an OSError).  The
same stat snapshot backs `_sort_key` and `_build_entry`, matching a
filesystem that does not change during one refresh. -/
structure FItem where
  name : String
  statR : Option StatInfo
deriving DecidableEq

/-- Directory test with the OSError fallback of `_sort_key`
(src/nedok/state.py lines 268-275) and of `_build_entry`/`_is_dir`: a path
whose stat fails is classified as a non-directory. -/
def itemIsDir (it : FItem) : Bool :=
  match it.statR with
  | some s => s.isDirS
  | none => false

/-- Python string comparison: lexicographic on code points. -/
def lexLeB : List Char → List Char → Bool
  | [], _ => true
  | _ :: _, [] => false
  | a :: as, b :: bs =>
    if a.toNat < b.toNat then true
    else if b.toNat < a.toNat then false
    else lexLeB as bs

theorem lexLeB_total : ∀ x y, lexLeB x y = true ∨ lexLeB y x = true
  | [], _ => Or.inl rfl
  | _ :: _, [] => Or.inr rfl
  | a :: as, b :: bs => by
    simp only [lexLeB]
    rcases lt_trichotomy a.toNat b.toNat with h | h | h
    · simp [h]
    · simp only [h, lt_irrefl, if_false]
      exact lexLeB_total as bs
    · simp [h, Nat.lt_asymm h]

theorem lexLeB_trans : ∀ x y z, lexLeB x y = true → lexLeB y z = true → lexLeB x z = true
  | [], _, _, _, _ => rfl
  | _ :: _, [], _, hxy, _ => by simp [lexLeB] at hxy
  | _ :: _, _ :: _, [], _, hyz => by simp [lexLeB] at hyz
  | a :: as, b :: bs, c :: cs, hxy, hyz => by
    simp only [lexLeB] at hxy hyz ⊢
    rcases lt_trichotomy a.toNat b.toNat with h1 | h1 | h1
    · rcases lt_trichotomy b.toNat c.toNat with h2 | h2 | h2
      · simp [h1.trans h2]
      · simp [h2 ▸ h1]
      · rw [if_neg (Nat.lt_asymm h2), if_pos h2] at hyz
        exact absurd hyz (by simp)
    · rw [if_neg (h1 ▸ lt_irrefl a.toNat), if_neg (h1 ▸ lt_irrefl a.toNat)] at hxy
      rcases lt_trichotomy b.toNat c.toNat with h2 | h2 | h2
      · simp [h1 ▸ h2]
      · have h3 : ¬ a.toNat < c.toNat := by omega
        have h4 : ¬ c.toNat < a.toNat := by omega
        have h5 : ¬ b.toNat < c.toNat := by omega
        have h6 : ¬ c.toNat < b.toNat := by omega
        rw [if_neg h5, if_neg h6] at hyz
        rw [if_neg h3, if_neg h4]
        exact lexLeB_trans as bs cs hxy hyz
      · rw [if_neg (Nat.lt_asymm h2), if_pos h2] at hyz
        exact absurd hyz (by simp)
    · rw [if_neg (Nat.lt_asymm h1), if_pos h1] at hxy
      exact absurd hxy (by simp)

/-- Lower-cased name as a character list (Python `path.name.lower()`). -/
def pyLowerL (s : String) : List Char := s.data.map Char.toLower

/-- Model of `_sort_key`: `(0 if is_dir else 1, path.name.lower())`. -/
def sortKeyP (it : FItem) : Nat × List Char := (if itemIsDir it then 0 else 1, pyLowerL it.name)

/-- Lexicographic comparison of sort keys, the order Python's `sorted`
establishes on the listing. -/
def keyLe (a b : FItem) : Prop :=
  (sortKeyP a).1 < (sortKeyP b).1 ∨
    ((sortKeyP a).1 = (sortKeyP b).1 ∧ lexLeB (sortKeyP a).2 (sortKeyP b).2 = true)

instance : DecidableRel keyLe := fun a b =>
  inferInstanceAs (Decidable ((sortKeyP a).1 < (sortKeyP b).1 ∨
    ((sortKeyP a).1 = (sortKeyP b).1 ∧ lexLeB (sortKeyP a).2 (sortKeyP b).2 = true)))

instance : IsTotal FItem keyLe where
  total a b := by
    unfold keyLe
    rcases lt_trichotomy (sortKeyP a).1 (sortKeyP b).1 with h | h | h
    · exact Or.inl (Or.inl h)
    · rcases lexLeB_total (sortKeyP a).2 (sortKeyP b).2 with h2 | h2
      · exact Or.inl (Or.inr ⟨h, h2⟩)
      · exact Or.inr (Or.inr ⟨h.symm, h2⟩)
    · exact Or.inr (Or.inl h)

instance : IsTrans FItem keyLe where
  trans a b c hab hbc := by
    unfold keyLe at *
    rcases hab with h1 | ⟨h1, h1b⟩ <;> rcases hbc with h2 | ⟨h2, h2b⟩
    · exact Or.inl (h1.trans h2)
    · exact Or.inl (h2 ▸ h1)
    · exact Or.inl (h1 ▸ h2)
    · exact Or.inr ⟨h1.trans h2, lexLeB_trans _ _ _ h1b h2b⟩

/-- Python `sorted(current.iterdir(), key=self._sort_key)`: a stable sort
whose output is ordered by `keyLe`. -/
def pySortedItems (items : List FItem) : List FItem := List.insertionSort keyLe items

/-- The fields of a listed `_PaneEntry` that the claims mention. -/
structure PEntry where
  name : String
  isDir : Bool
  isParent : Bool
deriving DecidableEq

/-- Model of `_build_entry` restricted to the modelled fields. -/
def buildE (it : FItem) : PEntry := { name := it.name, isDir := itemIsDir it, isParent := false }

/-- The synthetic ".." entry prepended when the directory has a parent. -/
def parentE : PEntry := { name := "..", isDir := true, isParent := true }

/-- One side of the split view: the listing plus cursor/scroll state
(the relevant fields of `_PaneState`). -/
structure Pane (α : Type) where
  entries : List α
  cursorIndex : Nat
  scrollOffset : Nat
deriving DecidableEq

/-- Errors a refresh can raise: PermissionError and FileNotFoundError for
local listings, and the PermissionError that `_refresh_remote_entries`
raises on a remote IOError. -/
inductive RefreshErr
  | permissionDenied
  | notFound
  | remoteIO
deriving DecidableEq

/-- Successful body of `_refresh_local_entries` (src/nedok/state.py lines
131-160) given the iterdir result: prepend the parent entry when the
directory is not the filesystem root, sort the children, build entries, and
clamp cursor and scroll to `[0, max(len(entries)-1, 0)]`. -/
def refreshLocalOk (hasParent : Bool) (children : List FItem) (st : Pane PEntry) : Pane PEntry :=
  let items := (if hasParent then [parentE] else []) ++ (pySortedItems children).map buildE
  { entries := items,
    cursorIndex := min st.cursorIndex (max (items.length - 1) 0),
    scrollOffset := min st.scrollOffset (max (items.length - 1) 0) }

/-- Model of `_refresh_local_entries` with its failure behaviour: the iterdir call
either raises (the exception propagates and `self.entries` is only
assigned after the listing succeeded, so the pane is returned unchanged)
or yields the children. -/
def refreshLocalRun (hasParent : Bool) (listing : Except RefreshErr (List FItem))
    (st : Pane PEntry) : Pane PEntry × Option RefreshErr :=
  match listing with
  | Except.error e => (st, some e)
  | Except.ok children => (refreshLocalOk hasParent children st, none)

/-- Successful body of `_refresh_remote_entries` (src/nedok/state.py lines
162-193): parent entry when not at the remote root, the remote listing
sorted by the same directories-first key, the "." and ".." names skipped,
and the same cursor/scroll clamps. -/
def refreshRemoteOk (hasParent : Bool) (children : List FItem) (st : Pane PEntry) : Pane PEntry :=
  let items := (if hasParent then [parentE] else []) ++
    ((pySortedItems children).filter (fun it => it.name ≠ "." ∧ it.name ≠ "..")).map buildE
  { entries := items,
    cursorIndex := min st.cursorIndex (max (items.length - 1) 0),
    scrollOffset := min st.scrollOffset (max (items.length - 1) 0) }

/-- Model of `_refresh_remote_entries` with its failure behaviour: an IOError from
`list_directory` is re-raised before `self.entries` is assigned, so the
pane is returned unchanged. -/
def refreshRemoteRun (hasParent : Bool) (listing : Except RefreshErr (List FItem))
    (st : Pane PEntry) : Pane PEntry × Option RefreshErr :=
  match listing with
  | Except.error e => (st, some e)
  | Except.ok children => (refreshRemoteOk hasParent children st, none)

/-- Model of `ensure_cursor_visible` (src/nedok/state.py lines 285-295): scroll-follow
then clamp to `[0, max(len(entries) - viewport_height, 0)]`; a non-positive
viewport height resets the offset to 0. -/
def ensureCursorVisible (vh : Nat) (st : Pane α) : Pane α :=
  if vh = 0 then { st with scrollOffset := 0 }
  else
    let so1 :=
      if st.cursorIndex < st.scrollOffset then st.cursorIndex
      else if st.scrollOffset + vh ≤ st.cursorIndex then st.cursorIndex - vh + 1
      else st.scrollOffset
    { st with scrollOffset := min so1 (max (st.entries.length - vh) 0) }

/-- Model of `selected_entry` (src/nedok/state.py lines 339-343): `None` on an empty
listing, otherwise `entries[cursor_index]` (modelled as a safe lookup). -/
def selectedEntry (st : Pane α) : Option α :=
  if st.entries.isEmpty then none else st.entries.get? st.cursorIndex

/-! ### Tree projection (local only)

Directories are abstract nodes (Nat).  `normalize` models
`_normalize_tree_path` (Path.resolve with the path itself as fallback, so
it is total); `listing` models iterdir with `none` for the swallowed
PermissionError/FileNotFoundError/NotADirectoryError/OSError; `dom` is a
finite set containing every resolved path, which holds for any real
filesystem and is what bounds the visited set. -/

/-- The directory graph a tree build walks over. -/
structure TreeFS where
  dom : Finset Nat
  normalize : Nat → Nat
  listing : Nat → Option (List Nat)
  isDirF : Nat → Bool
  isSymF : Nat → Bool
  norm_mem : ∀ x, normalize x ∈ dom

/-- A directory can be expanded into iff it is a non-symlink directory
(`can_expand` in `_refresh_tree_entries`). -/
def canExpand (fs : TreeFS) (c : Nat) : Bool := fs.isDirF c && !fs.isSymF c

/-- The tree-mode fields of a `_PaneEntry`. -/
structure TEntry where
  path : Nat
  depth : Nat
  parentDir : Option Nat
  isDir : Bool
  isSymlink : Bool
  isCollapsed : Bool
  isExpanded : Bool
deriving DecidableEq

/-- Entry construction inside the tree walk: depth, parent directory and
collapse flags as set by `add_children` (src/nedok/state.py lines 221-234). -/
def mkTEntry (fs : TreeFS) (collapsed : Finset Nat) (parent c depth : Nat) : TEntry :=
  let ce := canExpand fs c
  let col := decide (fs.normalize c ∈ collapsed)
  { path := c, depth := depth, parentDir := some parent,
    isDir := fs.isDirF c, isSymlink := fs.isSymF c,
    isCollapsed := ce && col, isExpanded := ce && !col }

/-- Work items of the tree walk in explicit-stack form: `visit dir depth`
is a call `add_children(dir, depth)`, `emit parent c depth` is one
iteration of its loop body for child `c`. -/
inductive TreeTask
  | visit (dir : Nat) (depth : Nat)
  | emit (parent : Nat) (c : Nat) (depth : Nat)
deriving DecidableEq

/-- Termination weight of one task. -/
def taskWeight : TreeTask → Nat
  | .visit _ _ => 1
  | .emit _ _ _ => 2

/-- Total termination weight of a task stack. -/
def stackWeight (l : List TreeTask) : Nat := (l.map taskWeight).sum

theorem sdiff_insert_card_lt (s t : Finset Nat) (a : Nat) (ha : a ∈ s) (hv : a ∉ t) :
    (s \ insert a t).card < (s \ t).card := by
  apply Finset.card_lt_card
  constructor
  · exact Finset.sdiff_subset_sdiff (le_refl s) (Finset.subset_insert a t)
  · intro hsub
    have hmem : a ∈ s \ t := Finset.mem_sdiff.mpr ⟨ha, hv⟩
    have := hsub hmem
    simp [Finset.mem_sdiff] at this

/-- The recursive walk of `_refresh_tree_entries` (src/nedok/state.py lines
205-238) in explicit-stack form, preserving its pre-order output, its
visited-set discipline (a directory is added to `visited_dirs` on entry to
`add_children`, before listing, and the call returns immediately when the
normalized directory was already visited) and its swallowing of listing
errors.  Returns the flat entry sequence together with the list of
normalized directories expanded into, in expansion order. -/
def treeGo (fs : TreeFS) (collapsed : Finset Nat) :
    Finset Nat → List TreeTask → List TEntry × List Nat
  | _, [] => ([], [])
  | visited, TreeTask.visit dir depth :: rest =>
    if fs.normalize dir ∈ visited then treeGo fs collapsed visited rest
    else
      match fs.listing dir with
      | none =>
        ((treeGo fs collapsed (insert (fs.normalize dir) visited) rest).1,
          fs.normalize dir ::
            (treeGo fs collapsed (insert (fs.normalize dir) visited) rest).2)
      | some cs =>
        ((treeGo fs collapsed (insert (fs.normalize dir) visited)
            (cs.map (fun c => TreeTask.emit dir c depth) ++ rest)).1,
          fs.normalize dir ::
            (treeGo fs collapsed (insert (fs.normalize dir) visited)
              (cs.map (fun c => TreeTask.emit dir c depth) ++ rest)).2)
  | visited, TreeTask.emit parent c depth :: rest =>
    if canExpand fs c && !(decide (fs.normalize c ∈ collapsed)) then
      (mkTEntry fs collapsed parent c depth ::
          (treeGo fs collapsed visited (TreeTask.visit c (depth + 1) :: rest)).1,
        (treeGo fs collapsed visited (TreeTask.visit c (depth + 1) :: rest)).2)
    else
      (mkTEntry fs collapsed parent c depth ::
          (treeGo fs collapsed visited rest).1,
        (treeGo fs collapsed visited rest).2)
termination_by visited stack => ((fs.dom \ visited).card, stackWeight stack)
decreasing_by
  all_goals
    first
      | exact Prod.Lex.left _ _
          (sdiff_insert_card_lt fs.dom visited (fs.normalize dir) (fs.norm_mem dir)
            (by assumption))
      | (apply Prod.Lex.right
         simp [stackWeight, taskWeight])

/-- Model of the `_refresh_tree_entries` entry point: resolve the root (with fallback)
and walk from it with a visited set scoped to this build.  `collapsed` is
the (already pruned) `tree_collapsed_paths` set. -/
def treeBuild (fs : TreeFS) (collapsed : Finset Nat) (rootDir : Nat) : List TEntry × List Nat :=
  treeGo fs collapsed ∅ [TreeTask.visit (fs.normalize rootDir) 0]

/-- Tree refresh on a pane: entries from the walk, then the same clamps as
the other refresh paths (src/nedok/state.py lines 240-242). -/
def refreshTreeRun (fs : TreeFS) (collapsed : Finset Nat) (rootDir : Nat)
    (st : Pane TEntry) : Pane TEntry :=
  let items := (treeBuild fs collapsed rootDir).1
  { entries := items,
    cursorIndex := min st.cursorIndex (max (items.length - 1) 0),
    scrollOffset := min st.scrollOffset (max (items.length - 1) 0) }

/-- Pane state consumed by `collapse_tree_at_cursor`: in tree mode all
entries carry local paths, so the `isinstance(entry.path, Path)` guard of
the source holds for every directory entry. -/
structure TreePane where
  entries : List TEntry
  cursorIndex : Nat
  treeModeEnabled : Bool
  collapsedPaths : Finset Nat
  currentDir : Nat
deriving DecidableEq

/-- Model of `collapse_tree_at_cursor` (src/nedok/state.py lines 312-337): pick the
selected directory itself when the entry is a directory, else its recorded
tree parent; refuse on the tree root; add the normalized target and return
true only when it was not collapsed already.  Returns the flag and the
updated collapsed set. -/
def collapseTreeAtCursor (norm : Nat → Nat) (st : TreePane) : Bool × Finset Nat :=
  if !st.treeModeEnabled then (false, st.collapsedPaths)
  else
    match (if st.entries.isEmpty then none else st.entries.get? st.cursorIndex) with
    | none => (false, st.collapsedPaths)
    | some e =>
      match (if e.isDir then some e.path else e.parentDir) with
      | none => (false, st.collapsedPaths)
      | some t =>
        let nt := norm t
        if nt = norm st.currentDir then (false, st.collapsedPaths)
        else if nt ∈ st.collapsedPaths then (false, st.collapsedPaths)
        else (true, insert nt st.collapsedPaths)

/-! ### Git status parsing (src/nedok/git_status.py) -/

/-- Test of `status_code[0] in ("R", "C")` on the raw record: byte 82 is
the ASCII decoding of "R" and 67 of "C" (bytes outside ASCII decode to the
replacement character and never compare equal to either letter). -/
def isRenameOrCopy (e : List Nat) : Bool :=
  match e.head? with
  | some b => b = 82 || b = 67
  | none => false

/-- The `while index < total` parsing loop of `collect_git_status`
(src/nedok/git_status.py lines 47-69) over the NUL-split byte records of
`git status --porcelain=1 -z`: empty and short (< 4 bytes) records are
skipped, the first two bytes are the status, byte 2 (the separator) is
skipped, the remainder is the path; a record whose status starts with R or
C consumes the following record as a second path field, preferring it as
the path when non-empty.  Output: the `(status, path)` assignments in
order. -/
def parseRecords : List (List Nat) → List (List Nat × List Nat)
  | [] => []
  | e :: rest =>
    if e.length = 0 then parseRecords rest
    else if e.length < 4 then parseRecords rest
    else
      let status := e.take 2
      let path0 := e.drop 3
      if isRenameOrCopy e then
        match rest with
        | [] => [(status, path0)]
        | f :: rest2 =>
          let path1 := if f.length = 0 then path0 else f
          (status, path1) :: parseRecords rest2
      else (status, path0) :: parseRecords rest

/-- A key of the returned status map: the result of
`(repo_root / Path(path_text)).resolve(strict=False)`, i.e. a resolved
absolute path under the repository root. -/
structure ResolvedAbs where
  root : List Nat
  rel : List Nat
deriving DecidableEq

/-- Key construction of `collect_git_status` line 68. -/
def resolveUnder (root rel : List Nat) : ResolvedAbs := ⟨root, rel⟩

/-- The status-map assignments of `collect_git_status` (insertion order;
the Python dict keeps the last assignment per key). -/
def statusMapOf (root : List Nat) (entries : List (List Nat)) : List (ResolvedAbs × List Nat) :=
  (parseRecords entries).map (fun r => (resolveUnder root r.2, r.1))

/-! ### Event loop quit/dispatch routing (src/nedok/browser.py, _loop) -/

/-- The modal flags that the loop inspects; `pendingAction` is whether
`self.pending_action` is set. -/
structure LoopFlags where
  inCommandMode : Bool
  pendingAction : Bool
  inSshConnectMode : Bool
  inRenameMode : Bool
  inCreateMode : Bool
  inModePrompt : Bool
deriving DecidableEq

/-- The `in_modal_input` test of `_loop` (src/nedok/browser.py lines
175-182). -/
def inModalInput (f : LoopFlags) : Bool :=
  f.inCommandMode || f.pendingAction || f.inSshConnectMode ||
    f.inRenameMode || f.inCreateMode || f.inModePrompt

/-- Whether the loop breaks on this key (src/nedok/browser.py line 185):
the quit keys are q = 113 and Q = 81. -/
def loopQuits (f : LoopFlags) (key : Nat) : Bool :=
  (key = 113 || key = 81) && !inModalInput f

/-- The handler a non-quitting key is dispatched to. -/
inductive KeyHandler
  | confirmation
  | sshConnect
  | rename
  | create
  | modeSelect
  | command
  | navigation
deriving DecidableEq

/-- The dispatch chain of `_loop` (src/nedok/browser.py lines 188-201):
pending confirmation first, then SSH connect, rename, create, mode prompt,
command entry, and navigation as the fallback. -/
def dispatchKey (f : LoopFlags) : KeyHandler :=
  if f.pendingAction then .confirmation
  else if f.inSshConnectMode then .sshConnect
  else if f.inRenameMode then .rename
  else if f.inCreateMode then .create
  else if f.inModePrompt then .modeSelect
  else if f.inCommandMode then .command
  else .navigation

/-! ### Concrete inputs used by the claim theorems -/

/-- Filesystem for the move-with-collision scenario: panes on directories
A and B, both holding a file a.txt. -/
def c1Fs : List PathL := [["A"], ["A", "a.txt"], ["B"], ["B", "a.txt"]]

/-- The selected entry of the active pane: the file A/a.txt. -/
def c1Sel : SelEntry := { path := ["A", "a.txt"], isDir := false, isParent := false }

/-! ### Claim theorems -/

/-- C1: the spec says a move whose destination name already exists refuses
with a status message and no filesystem change, the source in particular
surviving.  The code violates this: `_copy_entry` refuses with the message
"Destination exists: a.txt", `_move_entry` only treats the copy as failed
when the lower-cased status message contains "failed", so it proceeds to
delete the source and reports "Moved a.txt." — the file is lost.  This
theorem evaluates the embedded `_move_entry` at that failing input:
B/a.txt exists beforehand, yet the move deletes A/a.txt. -/
theorem move_collision_deletes_source :
    ["B", "a.txt"] ∈ c1Fs ∧
    ["A", "a.txt"] ∉ (moveEntryOp (some c1Sel) ["B"] { fs := c1Fs, status := none }).fs ∧
    (moveEntryOp (some c1Sel) ["B"] { fs := c1Fs, status := none }).status =
      some "Moved a.txt." := by decide

/-- C3: invoking delete only installs the pending confirmation and never
touches the filesystem; while the confirmation is pending no key other
than y/Y deletes anything; and n/N/ESC leaves the filesystem unchanged,
clears the pending action and sets exactly the cancellation message. -/
theorem delete_requires_confirmation :
    (∀ (sel : Option SelEntry) (st : ConfState), (deleteEntryStart sel st).fs = st.fs) ∧
    (∀ (k : Nat) (st : ConfState), k ≠ 121 → k ≠ 89 →
      ((confirmationKey k st).2).fs = st.fs) ∧
    (∀ (k : Nat) (st : ConfState) (p : ConfPending), st.pending = some p →
      (k = 110 ∨ k = 78 ∨ k = 27) →
      confirmationKey k st = (true, { st with pending := none, status := some p.cancelMessage })) := by
  refine ⟨?_, ?_, ?_⟩
  · intro sel st
    cases sel with
    | none => rfl
    | some e =>
      simp only [deleteEntryStart]
      split <;> rfl
  · intro k st h1 h2
    cases hp : st.pending with
    | none => simp [confirmationKey, hp]
    | some p =>
      simp only [confirmationKey, hp]
      rw [if_neg (fun h => h.elim (fun hh => h1 hh) (fun hh => h2 hh))]
      split <;> rfl
  · intro k st p hp hk
    have hkne : ¬(k = 121 ∨ k = 89) := by rcases hk with rfl | rfl | rfl <;> simp
    simp only [confirmationKey, hp]
    rw [if_neg hkne, if_pos hk]

/-- Witness for C3 at a concrete state: declining a pending delete of
A/a.txt with the n key keeps the filesystem, clears the pending action and
sets "Cancelled.". -/
theorem delete_requires_confirmation_witness :
    (deleteEntryStart (some c1Sel) { fs := c1Fs, status := none, pending := none }).fs = c1Fs ∧
    ((confirmationKey 110
        { fs := c1Fs, status := none,
          pending := some { message := "Delete a.txt?", delPath := ["A", "a.txt"],
                            delIsDir := false, cancelMessage := "Cancelled." } }).2).fs = c1Fs ∧
    confirmationKey 110
        { fs := c1Fs, status := none,
          pending := some { message := "Delete a.txt?", delPath := ["A", "a.txt"],
                            delIsDir := false, cancelMessage := "Cancelled." } } =
      (true, { fs := c1Fs, status := some "Cancelled.", pending := none }) :=
  ⟨delete_requires_confirmation.1 (some c1Sel) { fs := c1Fs, status := none, pending := none },
   delete_requires_confirmation.2.1 110 _ (by decide) (by decide),
   delete_requires_confirmation.2.2 110 _ _ rfl (Or.inl rfl)⟩

/-- C4: when the listing call of a refresh raises (PermissionError or
FileNotFoundError locally, the re-raised remote IOError), the exception
propagates before `self.entries` is assigned, so the pane — entries,
cursor and scroll — is exactly what it was before the call. -/
theorem refresh_failure_preserves_pane :
    ∀ (st : Pane PEntry) (hasParent : Bool) (e : RefreshErr),
      refreshLocalRun hasParent (Except.error e) st = (st, some e) ∧
      refreshRemoteRun hasParent (Except.error e) st = (st, some e) := by
  intro st hp e
  exact ⟨rfl, rfl⟩

/-- C9: the loop breaks on q/Q exactly when no modal input is active
(command, rename, create, mode prompt, SSH connect, pending confirmation
all off); whenever any of those is active the quit test is false and the
key is dispatched to a modal handler — specifically the one the priority
chain selects, never navigation. -/
theorem quit_only_in_navigation :
    ∀ (f : LoopFlags) (k : Nat),
      (loopQuits f k = true ↔
        ((k = 113 ∨ k = 81) ∧ f.inCommandMode = false ∧ f.pendingAction = false ∧
          f.inSshConnectMode = false ∧ f.inRenameMode = false ∧
          f.inCreateMode = false ∧ f.inModePrompt = false)) ∧
      (inModalInput f = true →
        loopQuits f k = false ∧ dispatchKey f ≠ KeyHandler.navigation) ∧
      (f.pendingAction = true → dispatchKey f = KeyHandler.confirmation) ∧
      (f.pendingAction = false → f.inSshConnectMode = true →
        dispatchKey f = KeyHandler.sshConnect) ∧
      (f.pendingAction = false → f.inSshConnectMode = false → f.inRenameMode = true →
        dispatchKey f = KeyHandler.rename) ∧
      (f.pendingAction = false → f.inSshConnectMode = false → f.inRenameMode = false →
        f.inCreateMode = true → dispatchKey f = KeyHandler.create) ∧
      (f.pendingAction = false → f.inSshConnectMode = false → f.inRenameMode = false →
        f.inCreateMode = false → f.inModePrompt = true →
        dispatchKey f = KeyHandler.modeSelect) ∧
      (f.pendingAction = false → f.inSshConnectMode = false → f.inRenameMode = false →
        f.inCreateMode = false → f.inModePrompt = false → f.inCommandMode = true →
        dispatchKey f = KeyHandler.command) := by
  intro f k
  obtain ⟨c, p, s, rn, cr, m⟩ := f
  refine ⟨?_, ?_, ?_, ?_, ?_, ?_, ?_, ?_⟩ <;>
    cases c <;> cases p <;> cases s <;> cases rn <;> cases cr <;> cases m <;>
      simp [loopQuits, inModalInput, dispatchKey]

/-- Witness for C9: with a pending confirmation the q key (113) does not
quit and is routed to the confirmation handler. -/
theorem quit_only_in_navigation_witness :
    loopQuits ⟨false, true, false, false, false, false⟩ 113 = false ∧
    dispatchKey ⟨false, true, false, false, false, false⟩ = KeyHandler.confirmation :=
  ⟨((quit_only_in_navigation ⟨false, true, false, false, false, false⟩ 113).2.1
      (by decide)).1,
   (quit_only_in_navigation ⟨false, true, false, false, false, false⟩ 113).2.2.1 rfl⟩

/-- C10: under the cursor invariant, `selected_entry` returns None exactly
when the listing is empty, and otherwise returns `entries[cursor_index]`
with the index provably in bounds. -/
theorem selected_entry_safe :
    ∀ (st : Pane PEntry),
      (st.entries.isEmpty = true → st.cursorIndex = 0) →
      (st.entries.isEmpty = false → st.cursorIndex < st.entries.length) →
      ((selectedEntry st = none ↔ st.entries = []) ∧
       (st.entries ≠ [] → ∃ h : st.cursorIndex < st.entries.length,
          selectedEntry st = some (st.entries.get ⟨st.cursorIndex, h⟩))) := by
  intro st h0 hlt
  cases hE : st.entries.isEmpty with
  | true =>
    have hnil : st.entries = [] := List.isEmpty_iff.mp hE
    constructor
    · simp [selectedEntry, hE, hnil]
    · intro hne
      exact absurd hnil hne
  | false =>
    have hne : st.entries ≠ [] := by
      intro hcon
      rw [hcon] at hE
      simp at hE
    have hl := hlt hE
    constructor
    · simp only [selectedEntry, hE, Bool.false_eq_true, if_false]
      rw [List.get?_eq_get hl]
      simp [hne]
    · intro _
      refine ⟨hl, ?_⟩
      simp only [selectedEntry, hE, Bool.false_eq_true, if_false]
      exact List.get?_eq_get hl

/-- Witness for C10 at a one-entry pane with the cursor on it. -/
theorem selected_entry_safe_witness :
    (selectedEntry ⟨[parentE], 0, 0⟩ = none ↔ ([parentE] : List PEntry) = []) ∧
    (([parentE] : List PEntry) ≠ [] → ∃ h : 0 < ([parentE] : List PEntry).length,
      selectedEntry ⟨[parentE], 0, 0⟩ = some (([parentE] : List PEntry).get ⟨0, h⟩)) :=
  selected_entry_safe ⟨[parentE], 0, 0⟩ (by decide) (by decide)

/-- A root directory of five plain files, for the scroll-bound
counterexample. -/
def c2Children : List FItem :=
  [⟨"a", some ⟨false⟩⟩, ⟨"b", some ⟨false⟩⟩, ⟨"c", some ⟨false⟩⟩,
   ⟨"d", some ⟨false⟩⟩, ⟨"e", some ⟨false⟩⟩]

/-- C2 counterexample: the claim asserts that after any refresh
`scrollOffset ≤ max(len(entries) - viewportHeight, 0)` for ANY viewport
height.  But a refresh only clamps the offset to `max(len(entries)-1, 0)`
(src/nedok/state.py line 160).  Refreshing a 5-entry root listing with a
prior offset of 4 leaves the offset at 4, which exceeds the claimed bound
0 for viewport height 5. -/
theorem refresh_scroll_exceeds_viewport_bound :
    ¬ ((refreshLocalRun false (Except.ok c2Children) ⟨[], 0, 4⟩).1.scrollOffset ≤
        max ((refreshLocalRun false (Except.ok c2Children) ⟨[], 0, 4⟩).1.entries.length - 5) 0) := by
  decide

/-- The cursor/scroll state a refresh actually establishes. -/
def paneInv (p : Pane α) : Prop :=
  (p.entries.length = 0 → p.cursorIndex = 0 ∧ p.scrollOffset = 0) ∧
  (0 < p.entries.length → p.cursorIndex < p.entries.length) ∧
  p.scrollOffset ≤ max (p.entries.length - 1) 0

theorem clampInv (items : List α) (ci so : Nat) :
    paneInv (⟨items, min ci (max (items.length - 1) 0),
      min so (max (items.length - 1) 0)⟩ : Pane α) := by
  unfold paneInv
  dsimp only
  refine ⟨?_, ?_, ?_⟩
  · intro h
    rw [h]
    simp
  · intro h
    have h1 : min ci (max (items.length - 1) 0) ≤ max (items.length - 1) 0 :=
      min_le_right _ _
    rw [Nat.max_eq_left (Nat.zero_le _)] at h1
    omega
  · exact min_le_right _ _

/-- C2 amended: after any of the three refresh paths (local, remote, tree
build) the cursor satisfies `0 ≤ cursorIndex < len(entries)` (both 0 when
empty) and the scroll offset satisfies
`0 ≤ scrollOffset ≤ max(len(entries) - 1, 0)`; the viewport bound
`scrollOffset ≤ max(len(entries) - viewportHeight, 0)` is established by
`ensure_cursor_visible`, not by the refresh itself. -/
theorem refresh_clamps_cursor_and_scroll :
    (∀ (hasParent : Bool) (children : List FItem) (st : Pane PEntry),
        paneInv (refreshLocalOk hasParent children st)) ∧
    (∀ (hasParent : Bool) (children : List FItem) (st : Pane PEntry),
        paneInv (refreshRemoteOk hasParent children st)) ∧
    (∀ (fs : TreeFS) (collapsed : Finset Nat) (rootDir : Nat) (st : Pane TEntry),
        paneInv (refreshTreeRun fs collapsed rootDir st)) ∧
    (∀ (st : Pane PEntry) (vh : Nat), 0 < vh →
        (ensureCursorVisible vh st).scrollOffset ≤ max (st.entries.length - vh) 0) := by
  refine ⟨?_, ?_, ?_, ?_⟩
  · intro hasParent children st
    exact clampInv _ _ _
  · intro hasParent children st
    exact clampInv _ _ _
  · intro fs collapsed rootDir st
    exact clampInv _ _ _
  · intro st vh hvh
    have hne : ¬ vh = 0 := by omega
    simp only [ensureCursorVisible, hne, if_false]
    exact min_le_right _ _

/-- Witness for C2 amended: an empty refresh resets cursor and scroll, and
a concrete `ensure_cursor_visible` call establishes the viewport bound. -/
theorem refresh_clamps_cursor_and_scroll_witness :
    paneInv (refreshLocalOk false [] ⟨[], 3, 7⟩) ∧
    (ensureCursorVisible 2 ⟨[parentE], 0, 1⟩).scrollOffset ≤
      max (([parentE] : List PEntry).length - 2) 0 :=
  ⟨refresh_clamps_cursor_and_scroll.1 false [] ⟨[], 3, 7⟩,
   refresh_clamps_cursor_and_scroll.2.2.2 ⟨[parentE], 0, 1⟩ 2 (by decide)⟩

/-- The per-pair order the sorting claim asserts on listed entries:
directories never follow non-directories, and names are compared
case-insensitively within a group. -/
def entryOrd (a b : PEntry) : Prop :=
  (b.isDir = true → a.isDir = true) ∧
  (a.isDir = b.isDir → lexLeB (pyLowerL a.name) (pyLowerL b.name) = true)

theorem keyLe_entryOrd {a b : FItem} (h : keyLe a b) : entryOrd (buildE a) (buildE b) := by
  constructor
  · intro hb
    have hb2 : itemIsDir b = true := hb
    cases ha : itemIsDir a with
    | true => exact ha
    | false =>
      exfalso
      rcases h with h | ⟨h, _⟩ <;> simp [sortKeyP, ha, hb2] at h
  · intro heq
    have heq2 : itemIsDir a = itemIsDir b := heq
    rcases h with h | ⟨_, h2⟩
    · exfalso
      rw [sortKeyP, sortKeyP] at h
      dsimp only at h
      rw [heq2] at h
      cases itemIsDir b <;> simp at h
    · exact h2

/-- C8: in a freshly refreshed local or remote (non-tree) listing, every
pair of consecutive entries after the leading parent entry satisfies
`entryOrd`; and an entry whose stat failed gets sort-key group 1, i.e. is
ordered as a non-directory (the sort itself is total and never aborts). -/
theorem refreshed_listing_sorted :
    (∀ (hasParent : Bool) (children : List FItem) (st : Pane PEntry),
        List.Chain' entryOrd (((refreshLocalOk hasParent children st).entries).drop
          (if hasParent then 1 else 0))) ∧
    (∀ (hasParent : Bool) (children : List FItem) (st : Pane PEntry),
        List.Chain' entryOrd (((refreshRemoteOk hasParent children st).entries).drop
          (if hasParent then 1 else 0))) ∧
    (∀ it : FItem, it.statR = none → (sortKeyP it).1 = 1) := by
  have hsorted : ∀ children : List FItem,
      List.Pairwise keyLe (pySortedItems children) := fun children =>
    List.sorted_insertionSort keyLe children
  refine ⟨?_, ?_, ?_⟩
  · intro hasParent children st
    have hb : List.Pairwise entryOrd ((pySortedItems children).map buildE) :=
      (List.pairwise_map).mpr ((hsorted children).imp keyLe_entryOrd)
    cases hasParent with
    | true => simpa [refreshLocalOk] using hb.chain'
    | false => simpa [refreshLocalOk] using hb.chain'
  · intro hasParent children st
    have hfilter : List.Pairwise keyLe
        ((pySortedItems children).filter (fun it => it.name ≠ "." ∧ it.name ≠ "..")) :=
      (hsorted children).sublist (List.filter_sublist _)
    have hb : List.Pairwise entryOrd
        (((pySortedItems children).filter
            (fun it => it.name ≠ "." ∧ it.name ≠ "..")).map buildE) :=
      (List.pairwise_map).mpr (hfilter.imp keyLe_entryOrd)
    cases hasParent with
    | true => simpa [refreshRemoteOk] using hb.chain'
    | false => simpa [refreshRemoteOk] using hb.chain'
  · intro it h
    simp [sortKeyP, itemIsDir, h]

/-- Witness for C8: a stat-failed item sorts into the non-directory group,
and a concrete mixed listing comes out ordered. -/
theorem refreshed_listing_sorted_witness :
    (sortKeyP ⟨"broken", none⟩).1 = 1 ∧
    List.Chain' entryOrd
      (((refreshLocalOk true [⟨"z", some ⟨false⟩⟩, ⟨"B", some ⟨true⟩⟩] ⟨[], 0, 0⟩).entries).drop 1) := by
  constructor
  · exact refreshed_listing_sorted.2.2 ⟨"broken", none⟩ rfl
  · have h := refreshed_listing_sorted.1 true [⟨"z", some ⟨false⟩⟩, ⟨"B", some ⟨true⟩⟩]
      (⟨[], 0, 0⟩ : Pane PEntry)
    simpa using h

/-- C6: the porcelain parser reads each NUL-separated record as a
two-character status (bytes 0-1), skips the separator byte (index 2) and
takes the remainder as the path; for a record whose status starts with R
(82) or C (67) it consumes the following NUL-delimited field and that
second path field becomes the key of the map assignment, paired with the
repository root into a resolved absolute path. -/
theorem git_status_rename_uses_second_field :
    (∀ (root : List Nat) (e f : List Nat) (rest : List (List Nat)),
        4 ≤ e.length → isRenameOrCopy e = true → f ≠ [] →
        statusMapOf root (e :: f :: rest) =
          (resolveUnder root f, e.take 2) :: statusMapOf root rest) ∧
    (∀ (root : List Nat) (e : List Nat) (rest : List (List Nat)),
        4 ≤ e.length → isRenameOrCopy e = false →
        statusMapOf root (e :: rest) =
          (resolveUnder root (e.drop 3), e.take 2) :: statusMapOf root rest) := by
  constructor
  · intro root e f rest h4 hrc hf
    have h0 : ¬ e.length = 0 := by omega
    have hlt : ¬ e.length < 4 := by omega
    have hf0 : ¬ f.length = 0 := by
      cases f with
      | nil => exact absurd rfl hf
      | cons a l => simp
    simp [statusMapOf, parseRecords, h0, hlt, hrc, hf0]
  · intro root e rest h4 hrc
    have h0 : ¬ e.length = 0 := by omega
    have hlt : ¬ e.length < 4 := by omega
    simp [statusMapOf, parseRecords, h0, hlt, hrc]

/-- Witness for C6: a rename record "R " followed by a second path field,
and an ordinary modified record, parsed at concrete bytes. -/
theorem git_status_rename_uses_second_field_witness :
    statusMapOf [47] [[82, 32, 32, 111, 108, 100], [110, 101, 119]] =
      [(resolveUnder [47] [110, 101, 119], [82, 32])] ∧
    statusMapOf [47] [[32, 77, 32, 104, 105]] =
      [(resolveUnder [47] [104, 105], [32, 77])] := by
  constructor
  · have h := git_status_rename_uses_second_field.1 [47]
      [82, 32, 32, 111, 108, 100] [110, 101, 119] [] (by decide) (by decide) (by decide)
    exact h
  · have h := git_status_rename_uses_second_field.2 [47]
      [32, 77, 32, 104, 105] [] (by decide) (by decide)
    exact h

/-- The deeper directory 2 inside root 1, for the collapse scenario. -/
def c7Dir2 : TEntry :=
  { path := 2, depth := 0, parentDir := some 1, isDir := true, isSymlink := false,
    isCollapsed := false, isExpanded := true }

/-- A symlinked directory 5 listed under directory 2: a directory entry,
but not expandable (`can_expand` is false for symlinks). -/
def c7Entry : TEntry :=
  { path := 5, depth := 1, parentDir := some 2, isDir := true, isSymlink := true,
    isCollapsed := false, isExpanded := false }

/-- Tree pane with the cursor on the symlinked directory. -/
def c7St : TreePane :=
  { entries := [c7Dir2, c7Entry], cursorIndex := 1, treeModeEnabled := true,
    collapsedPaths := ∅, currentDir := 1 }

/-- C7 counterexample: the claim says a non-expandable selection (here a
symlinked directory, which the tree never recurses into) collapses its
parent directory.  The code only branches on `entry.is_dir`, so the
selected symlinked directory 5 is collapsed itself and its parent 2 is
not touched. -/
theorem collapse_symlink_dir_collapses_itself :
    c7St.entries.get? c7St.cursorIndex = some c7Entry ∧
    c7Entry.isDir = true ∧ c7Entry.isSymlink = true ∧ c7Entry.parentDir = some 2 ∧
    (collapseTreeAtCursor id c7St).1 = true ∧
    (collapseTreeAtCursor id c7St).2 = {5} ∧
    ¬ (2 ∈ (collapseTreeAtCursor id c7St).2) := by
  refine ⟨rfl, rfl, rfl, rfl, rfl, rfl, ?_⟩
  simp [collapseTreeAtCursor, c7St, c7Entry, c7Dir2, selectedEntry]

/-- C7 amended: with tree mode on and a selected entry, the call returns
true iff the collapsed-path set strictly grew; a directory selection —
expandable or not, symlinked directories included — collapses its own
normalized path, and only a non-directory selection falls back to its
recorded tree parent; the tree root is refused. -/
theorem collapse_tree_at_cursor_spec :
    ∀ (norm : Nat → Nat) (st : TreePane) (e : TEntry),
      st.treeModeEnabled = true →
      (if st.entries.isEmpty then none else st.entries.get? st.cursorIndex) = some e →
      (((collapseTreeAtCursor norm st).1 = true ↔
          st.collapsedPaths ⊂ (collapseTreeAtCursor norm st).2) ∧
       ((collapseTreeAtCursor norm st).1 = false →
          (collapseTreeAtCursor norm st).2 = st.collapsedPaths) ∧
       (e.isDir = true → (collapseTreeAtCursor norm st).1 = true →
          (collapseTreeAtCursor norm st).2 = insert (norm e.path) st.collapsedPaths) ∧
       (e.isDir = false → ∀ q, e.parentDir = some q →
          (collapseTreeAtCursor norm st).1 = true →
          (collapseTreeAtCursor norm st).2 = insert (norm q) st.collapsedPaths) ∧
       (e.isDir = true → norm e.path = norm st.currentDir →
          (collapseTreeAtCursor norm st).1 = false)) := by
  intro norm st e htm he
  have hchar : (∃ t, (if e.isDir then some e.path else e.parentDir) = some t ∧
      norm t ≠ norm st.currentDir ∧ norm t ∉ st.collapsedPaths ∧
      collapseTreeAtCursor norm st = (true, insert (norm t) st.collapsedPaths)) ∨
      collapseTreeAtCursor norm st = (false, st.collapsedPaths) := by
    simp only [collapseTreeAtCursor, htm, Bool.not_true, Bool.false_eq_true, if_false, he]
    cases hx : (if e.isDir then some e.path else e.parentDir) with
    | none => exact Or.inr rfl
    | some t =>
      simp only
      split_ifs with h1 h2
      · exact Or.inr rfl
      · exact Or.inr rfl
      · exact Or.inl ⟨t, rfl, h1, h2, rfl⟩
  refine ⟨?_, ?_, ?_, ?_, ?_⟩
  · rcases hchar with ⟨t, hx, h1, h2, heq⟩ | heq
    · rw [heq]
      exact ⟨fun _ => Finset.ssubset_insert h2, fun _ => rfl⟩
    · rw [heq]
      exact ⟨fun h => absurd h (by simp), fun h => absurd h (ssubset_irrefl _)⟩
  · rcases hchar with ⟨t, hx, h1, h2, heq⟩ | heq
    · rw [heq]
      intro hcon
      exact absurd hcon (by simp)
    · rw [heq]
      intro _
      rfl
  · intro hdir htrue
    rcases hchar with ⟨t, hx, h1, h2, heq⟩ | heq
    · rw [hdir] at hx
      simp only [if_true] at hx
      cases hx
      rw [heq]
    · rw [heq] at htrue
      exact absurd htrue (by simp)
  · intro hdir q hq htrue
    rcases hchar with ⟨t, hx, h1, h2, heq⟩ | heq
    · rw [hdir] at hx
      simp only [Bool.false_eq_true, if_false, hq] at hx
      cases hx
      rw [heq]
    · rw [heq] at htrue
      exact absurd htrue (by simp)
  · intro hdir hroot
    rcases hchar with ⟨t, hx, h1, h2, heq⟩ | heq
    · rw [hdir] at hx
      simp only [if_true] at hx
      cases hx
      exact absurd hroot h1
    · rw [heq]

/-- Witness for C7 amended at the concrete symlink-directory pane: the
call reports true, the set strictly grew, and it grew by the selected
directory's own path. -/
theorem collapse_tree_at_cursor_spec_witness :
    (((collapseTreeAtCursor id c7St).1 = true ↔
        c7St.collapsedPaths ⊂ (collapseTreeAtCursor id c7St).2)) ∧
    (collapseTreeAtCursor id c7St).2 = insert (id c7Entry.path) c7St.collapsedPaths :=
  ⟨(collapse_tree_at_cursor_spec id c7St c7Entry rfl rfl).1,
   (collapse_tree_at_cursor_spec id c7St c7Entry rfl rfl).2.2.1 rfl rfl⟩

theorem treeGo_visit_eq (fs : TreeFS) (collapsed visited : Finset Nat)
    (dir depth : Nat) (rest : List TreeTask) :
    treeGo fs collapsed visited (TreeTask.visit dir depth :: rest) =
      if fs.normalize dir ∈ visited then treeGo fs collapsed visited rest
      else
        match fs.listing dir with
        | none =>
          ((treeGo fs collapsed (insert (fs.normalize dir) visited) rest).1,
            fs.normalize dir ::
              (treeGo fs collapsed (insert (fs.normalize dir) visited) rest).2)
        | some cs =>
          ((treeGo fs collapsed (insert (fs.normalize dir) visited)
              (cs.map (fun c => TreeTask.emit dir c depth) ++ rest)).1,
            fs.normalize dir ::
              (treeGo fs collapsed (insert (fs.normalize dir) visited)
                (cs.map (fun c => TreeTask.emit dir c depth) ++ rest)).2) := by
  simp only [treeGo]

theorem treeGo_emit_eq (fs : TreeFS) (collapsed visited : Finset Nat)
    (parent c depth : Nat) (rest : List TreeTask) :
    treeGo fs collapsed visited (TreeTask.emit parent c depth :: rest) =
      if canExpand fs c && !(decide (fs.normalize c ∈ collapsed)) then
        (mkTEntry fs collapsed parent c depth ::
            (treeGo fs collapsed visited (TreeTask.visit c (depth + 1) :: rest)).1,
          (treeGo fs collapsed visited (TreeTask.visit c (depth + 1) :: rest)).2)
      else
        (mkTEntry fs collapsed parent c depth ::
            (treeGo fs collapsed visited rest).1,
          (treeGo fs collapsed visited rest).2) := by
  simp only [treeGo]

theorem treeGo_expansions (fs : TreeFS) (collapsed : Finset Nat) :
    ∀ (visited : Finset Nat) (stack : List TreeTask),
      (treeGo fs collapsed visited stack).2.Nodup ∧
      ∀ x ∈ (treeGo fs collapsed visited stack).2, x ∉ visited := by
  intro visited stack
  induction visited, stack using treeGo.induct fs collapsed with
  | case1 visited => simp [treeGo]
  | case2 visited dir depth rest h ih =>
    rw [treeGo_visit_eq, if_pos h]
    exact ih
  | case3 visited dir depth rest h hlist ih =>
    obtain ⟨ih1, ih2⟩ := ih
    rw [treeGo_visit_eq, if_neg h, hlist]
    constructor
    · refine List.nodup_cons.mpr ⟨?_, ih1⟩
      intro hmem
      exact (ih2 _ hmem) (Finset.mem_insert_self _ _)
    · intro x hx
      rcases List.mem_cons.mp hx with rfl | hx2
      · exact h
      · intro hxv
        exact (ih2 x hx2) (Finset.mem_insert_of_mem hxv)
  | case4 visited dir depth rest h cs hlist ih =>
    obtain ⟨ih1, ih2⟩ := ih
    rw [treeGo_visit_eq, if_neg h, hlist]
    constructor
    · refine List.nodup_cons.mpr ⟨?_, ih1⟩
      intro hmem
      exact (ih2 _ hmem) (Finset.mem_insert_self _ _)
    · intro x hx
      rcases List.mem_cons.mp hx with rfl | hx2
      · exact h
      · intro hxv
        exact (ih2 x hx2) (Finset.mem_insert_of_mem hxv)
  | case5 visited parent c depth rest h ih =>
    rw [treeGo_emit_eq, if_pos h]
    exact ih
  | case6 visited parent c depth rest h ih =>
    rw [treeGo_emit_eq, if_neg h]
    exact ih

/-- C5: the tree build (a total function: the visited set of resolved
directories grows inside the finite universe of the filesystem, so the
walk terminates on any directory graph, symlink cycles included) expands
into each resolved directory at most once per build: any directory it
expands appears exactly once in the expansion sequence. -/
theorem tree_build_expands_each_dir_once :
    ∀ (fs : TreeFS) (collapsed : Finset Nat) (rootDir d : Nat),
      d ∈ (treeBuild fs collapsed rootDir).2 →
      ((treeBuild fs collapsed rootDir).2).count d = 1 := by
  intro fs collapsed rootDir d hd
  exact List.count_eq_one_of_mem
    (treeGo_expansions fs collapsed ∅ [TreeTask.visit (fs.normalize rootDir) 0]).1 hd

/-- A two-directory filesystem whose resolved directories 0 and 1 list
each other: a directory cycle. -/
def cycFS : TreeFS where
  dom := {0, 1}
  normalize := fun x => x % 2
  listing := fun n => if n = 0 then some [1] else if n = 1 then some [0] else none
  isDirF := fun _ => true
  isSymF := fun _ => false
  norm_mem := fun x => by
    have h : x % 2 < 2 := Nat.mod_lt x (by omega)
    simp only [Finset.mem_insert, Finset.mem_singleton]
    omega

/-- The expansion sequence of the cyclic build: each of the two
directories is entered exactly once, then the walk stops. -/
theorem cycFS_expansions : (treeBuild cycFS ∅ 0).2 = [0, 1] := by
  simp [treeBuild, treeGo, cycFS, canExpand, mkTEntry]

/-- Witness for C5 on the concrete cycle: directory 0 sits on a cycle
(0 lists 1 and 1 lists 0), the build terminates, and 0 appears exactly
once in the expansion sequence. -/
theorem tree_build_expands_each_dir_once_witness :
    0 ∈ (treeBuild cycFS ∅ 0).2 ∧ ((treeBuild cycFS ∅ 0).2).count 0 = 1 := by
  have hmem : 0 ∈ (treeBuild cycFS ∅ 0).2 := by
    rw [cycFS_expansions]
    simp
  exact ⟨hmem, tree_build_expands_each_dir_once cycFS ∅ 0 0 hmem⟩

end Nedok
